import Mathlib

/-!
Shallow embedding of the shift-assignment engine in
`src/algorithms/scheduler_cpsat_phase.py` (class `Scheduler`), and proofs
settling the frozen claims about it.

Conventions of the embedding:
* Python floats are modelled as `ℚ`; Python ints as `ℤ` (or `ℕ` for counts).
* Python dicts with `.get(k, default)` reads are modelled as total functions
  with the default inlined; dicts whose key-membership is branched on
  (`provider in provider_shifts`) are modelled as `Option`-valued functions;
  the ordered solution dict is an association list with replace-or-append
  insertion (Python dict assignment keeps the position of an existing key and
  appends a fresh key).
* The external CP-SAT solver is a collaborator: the code posts constraints and
  receives back an assignment.  We embed the posted constraint set as a
  predicate `cpsat_constraints` on boolean assignments; any solution the
  solver may return satisfies it.  The objective only selects among
  constraint-satisfying assignments, so invariant claims quantify over all
  assignments satisfying `cpsat_constraints`.
-/

/-- Shift types, `["MD1", "MD2", "PM"]` in the source. -/
inductive Shift where
  | MD1
  | MD2
  | PM
deriving DecidableEq, Repr

/-- `self.shifts` as always passed to `Scheduler` (`shifts = ["MD1", "MD2", "PM"]`). -/
def shift_list : List Shift := [Shift.MD1, Shift.MD2, Shift.PM]

/-- Provider identity (string key, duplicates already disambiguated upstream). -/
abbrev Prov := String

/-- Facility identity. -/
abbrev Fac := String

/-- Day of month. -/
abbrev Day := ℕ

/-- A coverage obligation `(facility, shift, day)`. -/
abbrev Slot := Fac × Shift × Day

/-- One row of `parse_provider_contracts`, defaults `999` / `"IC"` inlined. -/
structure Contract where
  contract_type : String
  total_shifts : ℤ
  weekend_shifts : ℤ
  pm_shifts : ℤ
  preferred_shifts : List Shift
deriving DecidableEq, Repr

/-- The defaults used by `contract.get(..., 999)` / `.get("contract_type", "IC")`. -/
def default_contract : Contract :=
  { contract_type := "IC", total_shifts := 999, weekend_shifts := 999,
    pm_shifts := 999, preferred_shifts := [] }

/-- The parsed catalogs handed to the `Scheduler` methods. -/
structure Inputs where
  providers : List Prov
  facilities : List Fac
  days : List Day
  coverage : Fac → Shift → List Day
  availability : Prov → Day → List Shift
  credentialing : Prov → Finset Fac
  volumes : Fac → Shift → ℚ
  contracts : Prov → Contract
  weekend_days : List Day

/-- `self.volume_limits` : hard volume bands per shift type. -/
def volume_limits : Shift → ℚ × ℚ
  | Shift.MD1 => (6, 14)
  | Shift.MD2 => (8, 16)
  | Shift.PM => (5, 10)

/-- `shift_hours = {"MD1": 8, "MD2": 8, "PM": 12}` (constraint P1.8). -/
def shift_hours : Shift → ℕ
  | Shift.MD1 => 8
  | Shift.MD2 => 8
  | Shift.PM => 12

/-- The `provider_shifts` dict: provider → set of worked `(shift, day)` pairs;
`none` models the key being absent. -/
abbrev ShiftsMap := Prov → Option (Finset (Shift × Day))

/-- The `provider_daily_volume` dict, reads defaulting to `0.0`. -/
abbrev VolMap := Prov × Shift × Day → ℚ

/-- `sum(1 for (s, d) in shifts_worked if s == "PM")`. -/
def pm_count (S : Finset (Shift × Day)) : ℕ :=
  (S.filter (fun e => e.1 = Shift.PM)).card

/-- `sum(1 for (s, d) in shifts_worked if d in weekend_days)`. -/
def weekend_count (S : Finset (Shift × Day)) (weekend_days : List Day) : ℕ :=
  (S.filter (fun e => e.2 ∈ weekend_days)).card

/-- `provider in provider_shifts and len(provider_shifts[provider]) >= 20`. -/
def over_twenty (ps : ShiftsMap) (p : Prov) : Bool :=
  match ps p with
  | some S => decide (20 ≤ S.card)
  | none => false

/-- The `if check_soft_limits:` block of `is_eligible_greedy`
(quota ceilings, Phase 1 only). -/
def soft_ok (I : Inputs) (provider : Prov) (shift : Shift) (day : Day)
    (provider_shifts : ShiftsMap) : Bool :=
  match provider_shifts provider with
  | none => true
  | some S =>
    let contract := I.contracts provider
    let shifts_used : ℤ := S.card
    if contract.total_shifts ≤ shifts_used then false
    else if day ∈ I.weekend_days ∧ contract.weekend_shifts ≤ (weekend_count S I.weekend_days : ℤ) then false
    else if shift = Shift.PM ∧ contract.pm_shifts ≤ (pm_count S : ℤ) then false
    else true

/-- `Scheduler.is_eligible_greedy` (lines 698-742). -/
def is_eligible_greedy (I : Inputs) (provider : Prov) (facility : Fac)
    (shift : Shift) (day : Day) (provider_shifts : ShiftsMap)
    (provider_daily_volume : VolMap) (check_soft_limits : Bool) : Bool :=
  if facility ∉ I.credentialing provider then false
  else if shift ∉ I.availability provider day then false
  else
    let current_volume := provider_daily_volume (provider, shift, day)
    let site_volume := I.volumes facility shift
    let new_volume := current_volume + site_volume
    let max_vol := (volume_limits shift).2
    if max_vol < new_volume then false
    else if over_twenty provider_shifts provider then false
    else if check_soft_limits then soft_ok I provider shift day provider_shifts
    else true

/-- Python dict assignment `d[k] = v` on an insertion-ordered dict:
replace in place when the key exists, append otherwise. -/
def dict_insert (l : List (Slot × Prov)) (k : Slot) (v : Prov) : List (Slot × Prov) :=
  if l.any (fun e => e.1 = k) then l.map (fun e => if e.1 = k then (k, v) else e)
  else l ++ [(k, v)]

/-- `scored.sort(key=..., reverse=True); chosen = scored[0][0]` : Python's sort
is stable, so the chosen provider is the first one attaining the maximal
score in the original (eligibility-filter) order. -/
def argmax_first (score : Prov → ℤ) : List Prov → Option Prov
  | [] => none
  | p :: rest => some (rest.foldl (fun best q => if score best < score q then q else best) p)

/-- The mutable run state threaded through the greedy passes:
`solution`, `provider_shifts`, `provider_daily_volume`, `filled`. -/
structure GState where
  solution : List (Slot × Prov)
  shifts : ShiftsMap
  vol : VolMap
  filled : ℕ

/-- Commit one assignment: `solution[(f,s,d)] = chosen;
provider_shifts.setdefault(chosen, set()).add((s,d));
provider_daily_volume[(chosen,s,d)] += volumes[f][s]; filled += 1`. -/
def commit (I : Inputs) (st : GState) (f : Fac) (s : Shift) (d : Day)
    (chosen : Prov) : GState :=
  { solution := dict_insert st.solution (f, s, d) chosen
    shifts := fun q =>
      if q = chosen then some (insert (s, d) ((st.shifts chosen).getD ∅)) else st.shifts q
    vol := fun k =>
      if k = (chosen, s, d) then st.vol (chosen, s, d) + I.volumes f s else st.vol k
    filled := st.filled + 1 }

/-- The body of the `for f, s, d in slots:` loop of `run_phase1_greedy`:
filter eligible providers (soft limits on), score `1000` for providers
already working the same shift type that day, pick the stable maximum. -/
def greedy_step (I : Inputs) (st : GState) (slot : Slot) : GState :=
  let f := slot.1
  let s := slot.2.1
  let d := slot.2.2
  let eligible := I.providers.filter
    (fun p => is_eligible_greedy I p f s d st.shifts st.vol true)
  let score : Prov → ℤ := fun p =>
    match st.shifts p with
    | some S => if (s, d) ∈ S then 1000 else 0
    | none => 0
  match argmax_first score eligible with
  | none => st
  | some chosen => commit I st f s d chosen

/-- The empty run state (`solution = {}` etc.). -/
def init_state : GState :=
  { solution := [], shifts := fun _ => none, vol := fun _ => 0, filled := 0 }

/-- `run_phase1_greedy` continued from an arbitrary state (one `foldl` pass
over the slot list, in catalog order). -/
def run_phase1_greedy_from (I : Inputs) (st : GState) (slots : List Slot) : GState :=
  slots.foldl (greedy_step I) st

/-- `Scheduler.run_phase1_greedy` (lines 653-695). -/
def run_phase1_greedy (I : Inputs) (slots : List Slot) : GState :=
  run_phase1_greedy_from I init_state slots

/-- `Scheduler.score_minimize_providers` (lines 744-757). -/
def score_minimize_providers (I : Inputs) (provider : Prov) (shift : Shift)
    (day : Day) (provider_shifts : ShiftsMap) : ℤ :=
  let base : ℤ :=
    match provider_shifts provider with
    | some S => if 0 < S.card then (if (shift, day) ∈ S then 15000 else 10000) else 0
    | none => 0
  let contract := I.contracts provider
  base + (if contract.preferred_shifts ≠ [] ∧ shift ∈ contract.preferred_shifts then 100 else 0)
       + (if contract.contract_type = "FT" then 50 else 0)

/-- `Scheduler.score_balanced_providers` (lines 759-766). -/
def score_balanced_providers (provider : Prov) (shift : Shift) (day : Day)
    (provider_shifts : ShiftsMap) : ℤ :=
  let shifts_used : ℤ := ((provider_shifts provider).getD ∅).card
  (10000 - shifts_used * 100) +
    (if (match provider_shifts provider with
         | some S => decide ((shift, day) ∈ S)
         | none => false) then 200 else 0)

/-- The body of the `for f, s, d in uncovered:` loop shared by
`phase2_minimize` and `phase2_balanced`: eligibility with
`check_soft_limits=False`, variation-specific scoring. -/
def phase2_step (I : Inputs)
    (score : Prov → Shift → Day → ShiftsMap → ℤ)
    (st : GState) (slot : Slot) : GState :=
  let f := slot.1
  let s := slot.2.1
  let d := slot.2.2
  let eligible := I.providers.filter
    (fun p => is_eligible_greedy I p f s d st.shifts st.vol false)
  match argmax_first (fun p => score p s d st.shifts) eligible with
  | none => st
  | some chosen => commit I st f s d chosen

/-- `Scheduler.phase2_minimize` (lines 769-797): copies the Phase-1 state and
completes the uncovered slots with the minimize-providers scoring. -/
def phase2_minimize (I : Inputs) (sol_base : List (Slot × Prov))
    (shifts_base : ShiftsMap) (vol_base : VolMap) (uncovered : List Slot) : GState :=
  uncovered.foldl (phase2_step I (score_minimize_providers I))
    { solution := sol_base, shifts := shifts_base, vol := vol_base, filled := 0 }

/-- `for p in providers: if p not in provider_shifts: provider_shifts[p] = set()`
(prologue of `phase2_balanced`). -/
def seed_providers (I : Inputs) (ps : ShiftsMap) : ShiftsMap :=
  fun p =>
    match ps p with
    | some S => some S
    | none => if p ∈ I.providers then some (∅ : Finset (Shift × Day)) else none

/-- `Scheduler.phase2_balanced` (lines 799-828). -/
def phase2_balanced (I : Inputs) (sol_base : List (Slot × Prov))
    (shifts_base : ShiftsMap) (vol_base : VolMap) (uncovered : List Slot) : GState :=
  uncovered.foldl (phase2_step I (fun p s d ps => score_balanced_providers p s d ps))
    { solution := sol_base, shifts := seed_providers I shifts_base, vol := vol_base, filled := 0 }

/-- The Conservative variation (lines 888-891 of `run`): a verbatim copy of
the Phase-1 solution, shifts and volumes (`sol_p1.copy()` etc.). -/
def conservative (st : GState) : GState :=
  { solution := st.solution, shifts := st.shifts, vol := st.vol, filled := st.filled }

/-- Is a slot covered by a solution dict (a key of the dict)? -/
def covered (sol : List (Slot × Prov)) (k : Slot) : Prop :=
  ∃ e ∈ sol, e.1 = k

instance (sol : List (Slot × Prov)) (k : Slot) : Decidable (covered sol k) := by
  unfold covered
  infer_instance

-- ===========================================================================
-- Satisfaction scoring (`calculate_satisfaction_score`, lines 288-351)
-- ===========================================================================

/-- `M_i = max(0, len(shifts_worked) - total_contract) if total_contract < 999 else 0`. -/
def provider_M (c : Contract) (n : ℕ) : ℤ :=
  if c.total_shifts < 999 then max 0 ((n : ℤ) - c.total_shifts) else 0

/-- `P_i = max(0, pm_count - pm_contract) if pm_contract < 999 else 0`. -/
def provider_P (c : Contract) (S : Finset (Shift × Day)) : ℤ :=
  if c.pm_shifts < 999 then max 0 ((pm_count S : ℤ) - c.pm_shifts) else 0

/-- `W_i = max(0, weekend_count - weekend_contract) if weekend_contract < 999 else 0`. -/
def provider_W (c : Contract) (S : Finset (Shift × Day)) (weekend_days : List Day) : ℤ :=
  if c.weekend_shifts < 999 then max 0 ((weekend_count S weekend_days : ℤ) - c.weekend_shifts) else 0

/-- `weighted_excess = M_i * 1.0 + P_i * 1.5 + W_i * 2.0` for one provider. -/
def provider_weighted (I : Inputs) (p : Prov) (S : Finset (Shift × Day)) : ℚ :=
  (provider_M (I.contracts p) S.card : ℚ) * 1.0 +
    (provider_P (I.contracts p) S : ℚ) * 1.5 +
    (provider_W (I.contracts p) S I.weekend_days : ℚ) * 2.0

/-- The record returned by `calculate_satisfaction_score`. -/
structure ScoreRecord where
  satisfaction_score : ℚ
  total_weighted_excess : ℚ
  total_M : ℤ
  total_P : ℤ
  total_W : ℤ
  providers_affected : ℕ
  covered_slots : ℕ
  uncovered_slots : ℤ
  coverage_rate : ℚ

/-- `Scheduler.calculate_satisfaction_score`.  The loop body's
`if provider not in provider_shifts: continue` is modelled as a zero
contribution to every accumulator for such providers. -/
def calculate_satisfaction_score (I : Inputs) (solution : List (Slot × Prov))
    (provider_shifts : ShiftsMap) (total_slots : ℕ) : ScoreRecord :=
  let term : Prov → ℚ := fun p =>
    match provider_shifts p with
    | some S => provider_weighted I p S
    | none => 0
  let mterm : Prov → ℤ := fun p =>
    match provider_shifts p with
    | some S => provider_M (I.contracts p) S.card
    | none => 0
  let pterm : Prov → ℤ := fun p =>
    match provider_shifts p with
    | some S => provider_P (I.contracts p) S
    | none => 0
  let wterm : Prov → ℤ := fun p =>
    match provider_shifts p with
    | some S => provider_W (I.contracts p) S I.weekend_days
    | none => 0
  let total_weighted_excess : ℚ := (I.providers.map term).sum
  let providers_affected : ℕ := (I.providers.filter (fun p => 0 < term p)).length
  let max_possible_excess : ℚ := (I.providers.length : ℚ) * 20 * 2.0
  let satisfaction_score : ℚ :=
    if 0 < max_possible_excess then total_weighted_excess / max_possible_excess else 0
  let covered_slots : ℕ := solution.length
  { satisfaction_score := satisfaction_score
    total_weighted_excess := total_weighted_excess
    total_M := (I.providers.map mterm).sum
    total_P := (I.providers.map pterm).sum
    total_W := (I.providers.map wterm).sum
    providers_affected := providers_affected
    covered_slots := covered_slots
    uncovered_slots := (total_slots : ℤ) - covered_slots
    coverage_rate := if 0 < total_slots then (covered_slots : ℚ) / total_slots else 0 }

-- ===========================================================================
-- CP-SAT model (`run_phase1_cpsat`, lines 430-651).  The model posted to the
-- external solver is embedded as a constraint predicate on boolean
-- assignments; a solution returned with status Optimal/Feasible satisfies it.
-- ===========================================================================

/-- A value assignment to the decision variables `x[(p, f, s, d)]`. -/
abbrev Assign := Prov → Fac → Shift → Day → Bool

/-- A variable `x[(p, f, s, d)]` is created iff the provider is in the run,
the facility is in the run and credentialed for the provider, coverage is
needed that day, and the provider is available for that shift type that day
(the variable-creation loop, lines 443-458). -/
def var_exists (I : Inputs) (p : Prov) (f : Fac) (s : Shift) (d : Day) : Bool :=
  decide (p ∈ I.providers) && decide (f ∈ I.facilities) && decide (d ∈ I.days) &&
  decide (f ∈ I.credentialing p) && decide (d ∈ I.coverage f s) &&
  decide (s ∈ I.availability p d)

/-- The effective value of `x[(p, f, s, d)]`: variables that were never
created are read as false. -/
def xval (I : Inputs) (a : Assign) (p : Prov) (f : Fac) (s : Shift) (d : Day) : Bool :=
  var_exists I p f s d && a p f s d

/-- The `shift_working[(p, s, d)]` indicator.  The model constrains it to be
equivalent to "at least one facility variable is true" (lines 463-472), so in
any solution it equals this derived value; where no candidate variable exists
the indicator is absent and the derived value is false. -/
def cp_working (I : Inputs) (a : Assign) (p : Prov) (s : Shift) (d : Day) : Bool :=
  I.facilities.any (fun f => xval I a p f s d)

/-- Python `int(...)` truncation toward zero on a rational. -/
def int_trunc (q : ℚ) : ℤ :=
  if 0 ≤ q then ⌊q⌋ else ⌈q⌉

/-- `int(volumes.get(f, {}).get(s, 0) * 100)` — the scaled integer volume
coefficient used in constraint P1.6. -/
def vol_coef (I : Inputs) (f : Fac) (s : Shift) : ℤ :=
  int_trunc (I.volumes f s * 100)

/-- `volume_sum` of constraint P1.6: the sum of scaled coefficients of the
facilities assigned to `(p, s, d)`. -/
def cp_vol_sum (I : Inputs) (a : Assign) (p : Prov) (s : Shift) (d : Day) : ℤ :=
  (I.facilities.map (fun f => if xval I a p f s d then vol_coef I f s else 0)).sum

/-- The actual (unscaled) volume absorbed by `(p, s, d)` in a model solution. -/
def cp_real_vol (I : Inputs) (a : Assign) (p : Prov) (s : Shift) (d : Day) : ℚ :=
  (I.facilities.map (fun f => if xval I a p f s d then I.volumes f s else 0)).sum

/-- Number of true `shift_working` indicators of type `s` in the day window
`[lo, hi)` (the windows P1.7 sums over; absent indicators count 0). -/
def cp_count_range (I : Inputs) (a : Assign) (p : Prov) (s : Shift) (lo hi : ℕ) : ℕ :=
  ((List.range' lo (hi - lo)).filter (fun d => cp_working I a p s d)).length

/-- P1.4: per provider, weekend working shifts `≤ weekend_shifts`. -/
def cp_weekend_ok (I : Inputs) (a : Assign) : Prop :=
  ∀ p ∈ I.providers,
    (((shift_list.flatMap (fun s => I.days.map (fun d => (s, d)))).filter
        (fun e => decide (e.2 ∈ I.weekend_days) && cp_working I a p e.1 e.2)).length : ℤ)
      ≤ (I.contracts p).weekend_shifts

/-- P1.5: per provider, PM working shifts `≤ pm_shifts`. -/
def cp_pm_ok (I : Inputs) (a : Assign) : Prop :=
  ∀ p ∈ I.providers,
    ((I.days.filter (fun d => cp_working I a p Shift.PM d)).length : ℤ)
      ≤ (I.contracts p).pm_shifts

/-- P1.6: scaled volume in `[min*100, max*100]` whenever working. -/
def cp_volume_ok (I : Inputs) (a : Assign) : Prop :=
  ∀ p ∈ I.providers, ∀ s ∈ shift_list, ∀ d ∈ I.days,
    cp_working I a p s d = true →
      int_trunc ((volume_limits s).1 * 100) ≤ cp_vol_sum I a p s d ∧
      cp_vol_sum I a p s d ≤ int_trunc ((volume_limits s).2 * 100)

/-- P1.7: the four families of sliding-window ceilings, with the source's
window start ranges and `min(start + L, 32)` upper ends. -/
def cp_windows_ok (I : Inputs) (a : Assign) : Prop :=
  ∀ p ∈ I.providers,
    (∀ start ∈ List.range' 1 28,
      cp_count_range I a p Shift.MD1 start (min (start + 5) 32) ≤ 4) ∧
    (∀ start ∈ List.range' 1 25,
      cp_count_range I a p Shift.MD2 start (min (start + 8) 32) ≤ 7) ∧
    (∀ start ∈ List.range' 1 29,
      cp_count_range I a p Shift.PM start (min (start + 4) 32) ≤ 3) ∧
    (∀ start ∈ List.range' 1 28,
      cp_count_range I a p Shift.MD1 start (min (start + 5) 32) +
        cp_count_range I a p Shift.PM start (min (start + 5) 32) ≤ 4)

/-- P1.8: total daily hours `≤ 12`. -/
def cp_daily_ok (I : Inputs) (a : Assign) : Prop :=
  ∀ p ∈ I.providers, ∀ d ∈ I.days,
    (shift_list.map (fun s => if cp_working I a p s d then shift_hours s else 0)).sum ≤ 12

/-- The two MD2 site groups of constraint P1.9. -/
def site_group1 : List Fac := ["NHMC", "NMHMC"]

/-- Second MD2 site group of constraint P1.9. -/
def site_group2 : List Fac := ["NMMC", "NBAMC"]

/-- P1.9: a provider may work MD2 in at most one of the two site groups on a
given day (posted only when both groups have candidate variables; when one
group has none the disjunction holds vacuously). -/
def cp_group_ok (I : Inputs) (a : Assign) : Prop :=
  ∀ p ∈ I.providers, ∀ d ∈ I.days,
    (site_group1.all (fun f => !(xval I a p f Shift.MD2 d))) = true ∨
    (site_group2.all (fun f => !(xval I a p f Shift.MD2 d))) = true

/-- All hard constraints posted by `run_phase1_cpsat` (P1.4-P1.9; the
coverage indicators and the maximize-coverage objective select among
solutions but impose no further restriction on feasibility). -/
def cpsat_constraints (I : Inputs) (a : Assign) : Prop :=
  cp_weekend_ok I a ∧ cp_pm_ok I a ∧ cp_volume_ok I a ∧
  cp_windows_ok I a ∧ cp_daily_ok I a ∧ cp_group_ok I a

instance (I : Inputs) (a : Assign) : Decidable (cpsat_constraints I a) := by
  unfold cpsat_constraints cp_weekend_ok cp_pm_ok cp_volume_ok cp_windows_ok
    cp_daily_ok cp_group_ok
  infer_instance

/-- The status the external solver reports back. -/
inductive SolverStatus where
  | optimal
  | feasible
  | infeasible
  | timedOut
deriving DecidableEq, Repr

/-- The variable-creation order of the model (providers, then facilities,
then shift types, then days) — the iteration order of `x.items()` used when
extracting a solution. -/
def var_list (I : Inputs) : List (Prov × Fac × Shift × Day) :=
  I.providers.flatMap (fun p =>
    I.facilities.flatMap (fun f =>
      shift_list.flatMap (fun s =>
        I.days.filterMap (fun d =>
          if var_exists I p f s d then some (p, f, s, d) else none))))

/-- One step of the solution-extraction loop (lines 636-645): for each true
variable record the covering provider, the worked `(s, d)` pair and the
accumulated volume.  `filled` is not tracked during extraction. -/
def extract_step (I : Inputs) (a : Assign) (st : GState)
    (q : Prov × Fac × Shift × Day) : GState :=
  let p := q.1
  let f := q.2.1
  let s := q.2.2.1
  let d := q.2.2.2
  if a p f s d then
    { solution := dict_insert st.solution (f, s, d) p
      shifts := fun r =>
        if r = p then some (insert (s, d) ((st.shifts p).getD ∅)) else st.shifts r
      vol := fun k =>
        if k = (p, s, d) then st.vol (p, s, d) + I.volumes f s else st.vol k
      filled := st.filled }
  else st

/-- Extraction of a CP-SAT solution into `(solution, provider_shifts,
provider_daily_volume)`. -/
def extract_solution (I : Inputs) (a : Assign) : GState :=
  (var_list I).foldl (extract_step I a) init_state

/-- `run_phase1_cpsat` seen from the solve call onward: if the solver reports
Optimal or Feasible the solution is extracted, otherwise the result is
discarded and the greedy fallback runs over the full slot catalog
(lines 622-651). -/
def run_phase1_cpsat (I : Inputs) (slots : List Slot) (status : SolverStatus)
    (a : Assign) : GState :=
  if status = SolverStatus.optimal ∨ status = SolverStatus.feasible then
    extract_solution I a
  else
    run_phase1_greedy I slots

-- ===========================================================================
-- Availability-cell parsing (`parse_provider_availability`, lines 163-186)
-- ===========================================================================

/-- ASCII lowercase of one character (Python `str.lower` on the inputs at
hand). -/
def lower_char (c : Char) : Char := c.toLower

/-- Python `str.strip()`: drop whitespace at both ends. -/
def trim_chars (l : List Char) : List Char :=
  ((l.dropWhile Char.isWhitespace).reverse.dropWhile Char.isWhitespace).reverse

/-- Does `hay` start with `needle`? -/
def starts_with : List Char → List Char → Bool
  | [], _ => true
  | _ :: _, [] => false
  | a :: as, b :: bs => a = b && starts_with as bs

/-- Python `needle in hay` substring containment. -/
def has_sub (needle : List Char) : List Char → Bool
  | [] => decide (needle = [])
  | c :: rest => starts_with needle (c :: rest) || has_sub needle rest

/-- `"MD1", "MD2", "PM"` — full availability. -/
def all_shifts : List Shift := [Shift.MD1, Shift.MD2, Shift.PM]

/-- Stripped and lowercased cell text (`str(cell_val).strip().lower()`). -/
def lower_trim (l : List Char) : List Char :=
  (trim_chars l).map lower_char

/-- The per-cell branch of `parse_provider_availability` (lines 174-185):
`none` models a NaN cell. -/
def parse_availability_cell (cell : Option (List Char)) : List Shift :=
  match cell with
  | none => all_shifts
  | some raw =>
    if trim_chars raw = [] then all_shifts
    else
      let val := lower_trim raw
      if val = "unavailable".toList then []
      else if has_sub "pm only".toList val then [Shift.PM]
      else if has_sub "am only".toList val then [Shift.MD1, Shift.MD2]
      else all_shifts

-- ===========================================================================
-- Shared helper lemmas
-- ===========================================================================

/-- `argmax_first` returns an element of the list. -/
theorem argmax_first_mem (score : Prov → ℤ) (l : List Prov) (c : Prov)
    (h : argmax_first score l = some c) : c ∈ l := by
  match l with
  | [] => simp [argmax_first] at h
  | p :: rest =>
    simp only [argmax_first, Option.some.injEq] at h
    subst h
    have key : ∀ (t : List Prov) (b : Prov),
        t.foldl (fun best q => if score best < score q then q else best) b = b ∨
        t.foldl (fun best q => if score best < score q then q else best) b ∈ t := by
      intro t
      induction t with
      | nil => intro b; left; rfl
      | cons x xs ih =>
        intro b
        simp only [List.foldl_cons]
        rcases ih (if score b < score x then x else b) with h1 | h1
        · rw [h1]
          by_cases hc : score b < score x
          · right; simp [hc]
          · left; simp [hc]
        · right; exact List.mem_cons_of_mem _ h1
    rcases key rest p with h1 | h1
    · rw [h1]; exact List.mem_cons_self _ _
    · exact List.mem_cons_of_mem _ h1

/-- Consequences of a positive greedy-eligibility test (any soft-limit flag):
credentialed, available, volume max respected, 20-shift ceiling respected. -/
theorem is_eligible_elim {I : Inputs} {p : Prov} {f : Fac} {s : Shift} {d : Day}
    {ps : ShiftsMap} {pv : VolMap} {b : Bool}
    (h : is_eligible_greedy I p f s d ps pv b = true) :
    f ∈ I.credentialing p ∧ s ∈ I.availability p d ∧
    pv (p, s, d) + I.volumes f s ≤ (volume_limits s).2 ∧
    over_twenty ps p = false := by
  simp only [is_eligible_greedy] at h
  split_ifs at h with h1 h2 h3 h4
  all_goals
    refine ⟨by simpa using h1, by simpa using h2, le_of_not_lt (by simpa using h3), ?_⟩
  all_goals simpa using h4

/-- `covered` survives a dict insertion. -/
theorem covered_dict_insert {l : List (Slot × Prov)} {k : Slot}
    (k0 : Slot) (v : Prov) (h : covered l k) : covered (dict_insert l k0 v) k := by
  obtain ⟨e, he, hk⟩ := h
  unfold dict_insert
  split_ifs with hmem
  · by_cases hek : e.1 = k0
    · exact ⟨(k0, v), List.mem_map.mpr ⟨e, he, by simp [hek]⟩, by simp [← hek, hk]⟩
    · exact ⟨e, List.mem_map.mpr ⟨e, he, by simp [hek]⟩, hk⟩
  · exact ⟨e, List.mem_append_left _ he, hk⟩

/-- `covered` survives a `commit`. -/
theorem covered_commit {I : Inputs} {st : GState} {k : Slot}
    (f : Fac) (s : Shift) (d : Day) (c : Prov)
    (h : covered st.solution k) : covered (commit I st f s d c).solution k :=
  covered_dict_insert _ _ h

/-- `covered` survives a phase-2 step. -/
theorem covered_phase2_step {I : Inputs} {sc : Prov → Shift → Day → ShiftsMap → ℤ}
    {st : GState} {slot : Slot} {k : Slot}
    (h : covered st.solution k) : covered (phase2_step I sc st slot).solution k := by
  unfold phase2_step
  cases harg : argmax_first (fun p => sc p slot.2.1 slot.2.2 st.shifts)
      (I.providers.filter
        (fun p => is_eligible_greedy I p slot.1 slot.2.1 slot.2.2 st.shifts st.vol false)) with
  | none => simpa [harg] using h
  | some c => simpa [harg] using covered_commit _ _ _ _ h

/-- `covered` survives a whole phase-2 fold. -/
theorem covered_phase2_fold {I : Inputs} {sc : Prov → Shift → Day → ShiftsMap → ℤ}
    (l : List Slot) (st : GState) (k : Slot)
    (h : covered st.solution k) :
    covered ((l.foldl (phase2_step I sc) st)).solution k := by
  induction l generalizing st with
  | nil => exact h
  | cons x xs ih => exact ih _ (covered_phase2_step h)

/-- Pointwise domination of `provider_shifts` dicts: every present entry stays
present and only grows. -/
def shifts_le (a b : ShiftsMap) : Prop :=
  ∀ p S, a p = some S → ∃ T, b p = some T ∧ S ⊆ T

theorem shifts_le_refl (a : ShiftsMap) : shifts_le a a :=
  fun _ S h => ⟨S, h, le_refl S⟩

theorem shifts_le_trans {a b c : ShiftsMap} (h1 : shifts_le a b) (h2 : shifts_le b c) :
    shifts_le a c := by
  intro p S h
  obtain ⟨T, hT, hST⟩ := h1 p S h
  obtain ⟨U, hU, hTU⟩ := h2 p T hT
  exact ⟨U, hU, hST.trans hTU⟩

/-- A `commit` only grows the shifts dict. -/
theorem shifts_le_commit (I : Inputs) (st : GState) (f : Fac) (s : Shift) (d : Day)
    (c : Prov) : shifts_le st.shifts (commit I st f s d c).shifts := by
  intro p S h
  unfold commit
  by_cases hp : p = c
  · subst hp
    refine ⟨insert (s, d) ((st.shifts p).getD ∅), by simp, ?_⟩
    rw [h]
    exact (Finset.subset_insert _ _)
  · exact ⟨S, by simp [hp, h], le_refl S⟩

/-- A phase-2 step only grows the shifts dict. -/
theorem shifts_le_phase2_step (I : Inputs) (sc : Prov → Shift → Day → ShiftsMap → ℤ)
    (st : GState) (slot : Slot) : shifts_le st.shifts (phase2_step I sc st slot).shifts := by
  unfold phase2_step
  cases harg : argmax_first (fun p => sc p slot.2.1 slot.2.2 st.shifts)
      (I.providers.filter
        (fun p => is_eligible_greedy I p slot.1 slot.2.1 slot.2.2 st.shifts st.vol false)) with
  | none => simpa [harg] using shifts_le_refl st.shifts
  | some c => simpa [harg] using shifts_le_commit I st slot.1 slot.2.1 slot.2.2 c

/-- A phase-2 fold only grows the shifts dict. -/
theorem shifts_le_phase2_fold (I : Inputs) (sc : Prov → Shift → Day → ShiftsMap → ℤ)
    (l : List Slot) (st : GState) :
    shifts_le st.shifts ((l.foldl (phase2_step I sc) st)).shifts := by
  induction l generalizing st with
  | nil => exact shifts_le_refl _
  | cons x xs ih =>
    exact shifts_le_trans (shifts_le_phase2_step I sc st x) (ih _)

/-- Seeding absent providers with empty sets only grows the shifts dict. -/
theorem shifts_le_seed (I : Inputs) (ps : ShiftsMap) : shifts_le ps (seed_providers I ps) := by
  intro p S h
  exact ⟨S, by simp [seed_providers, h], le_refl S⟩

/-- Each per-provider excess term is non-negative. -/
theorem provider_weighted_nonneg (I : Inputs) (p : Prov) (S : Finset (Shift × Day)) :
    0 ≤ provider_weighted I p S := by
  unfold provider_weighted provider_M provider_P provider_W
  have h1 : (0 : ℤ) ≤ (if (I.contracts p).total_shifts < 999 then
      max 0 ((S.card : ℤ) - (I.contracts p).total_shifts) else 0) := by
    split_ifs <;> simp
  have h2 : (0 : ℤ) ≤ (if (I.contracts p).pm_shifts < 999 then
      max 0 ((pm_count S : ℤ) - (I.contracts p).pm_shifts) else 0) := by
    split_ifs <;> simp
  have h3 : (0 : ℤ) ≤ (if (I.contracts p).weekend_shifts < 999 then
      max 0 ((weekend_count S I.weekend_days : ℤ) - (I.contracts p).weekend_shifts) else 0) := by
    split_ifs <;> simp
  have c1 : (0 : ℚ) ≤ ((if (I.contracts p).total_shifts < 999 then
      max 0 ((S.card : ℤ) - (I.contracts p).total_shifts) else 0) : ℚ) := by exact_mod_cast h1
  have c2 : (0 : ℚ) ≤ ((if (I.contracts p).pm_shifts < 999 then
      max 0 ((pm_count S : ℤ) - (I.contracts p).pm_shifts) else 0) : ℚ) := by exact_mod_cast h2
  have c3 : (0 : ℚ) ≤ ((if (I.contracts p).weekend_shifts < 999 then
      max 0 ((weekend_count S I.weekend_days : ℤ) - (I.contracts p).weekend_shifts) else 0) : ℚ) := by
    exact_mod_cast h3
  have w1 : (0 : ℚ) ≤ 1.0 := by norm_num
  have w2 : (0 : ℚ) ≤ 1.5 := by norm_num
  have w3 : (0 : ℚ) ≤ 2.0 := by norm_num
  positivity

/-- `pm_count` is monotone in the shift set. -/
theorem pm_count_mono {S T : Finset (Shift × Day)} (h : S ⊆ T) :
    pm_count S ≤ pm_count T :=
  Finset.card_le_card (Finset.filter_subset_filter _ h)

/-- `weekend_count` is monotone in the shift set. -/
theorem weekend_count_mono {S T : Finset (Shift × Day)} (wk : List Day) (h : S ⊆ T) :
    weekend_count S wk ≤ weekend_count T wk :=
  Finset.card_le_card (Finset.filter_subset_filter _ h)

/-- The per-provider excess term is monotone in the shift set. -/
theorem provider_weighted_mono (I : Inputs) (p : Prov) {S T : Finset (Shift × Day)}
    (h : S ⊆ T) : provider_weighted I p S ≤ provider_weighted I p T := by
  unfold provider_weighted
  have hM : provider_M (I.contracts p) S.card ≤ provider_M (I.contracts p) T.card := by
    unfold provider_M
    split_ifs with hq
    · exact max_le_max (le_refl 0) (by
        have := Finset.card_le_card h
        omega)
    · exact le_refl 0
  have hP : provider_P (I.contracts p) S ≤ provider_P (I.contracts p) T := by
    unfold provider_P
    split_ifs with hq
    · exact max_le_max (le_refl 0) (by
        have := pm_count_mono h
        omega)
    · exact le_refl 0
  have hW : provider_W (I.contracts p) S I.weekend_days ≤
      provider_W (I.contracts p) T I.weekend_days := by
    unfold provider_W
    split_ifs with hq
    · exact max_le_max (le_refl 0) (by
        have := weekend_count_mono I.weekend_days h
        omega)
    · exact le_refl 0
  have cM : ((provider_M (I.contracts p) S.card : ℤ) : ℚ) ≤ provider_M (I.contracts p) T.card := by
    exact_mod_cast hM
  have cP : ((provider_P (I.contracts p) S : ℤ) : ℚ) ≤ provider_P (I.contracts p) T := by
    exact_mod_cast hP
  have cW : ((provider_W (I.contracts p) S I.weekend_days : ℤ) : ℚ) ≤
      provider_W (I.contracts p) T I.weekend_days := by
    exact_mod_cast hW
  have w1 : (0 : ℚ) ≤ 1.0 := by norm_num
  have w2 : (0 : ℚ) ≤ 1.5 := by norm_num
  have w3 : (0 : ℚ) ≤ 2.0 := by norm_num
  gcongr

/-- Growing the shifts dict can only raise the satisfaction score (the
fields the score is computed from, with the same provider list and
normalizer). -/
theorem satisfaction_score_mono (I : Inputs) (sol1 sol2 : List (Slot × Prov))
    (t1 t2 : ℕ) {a b : ShiftsMap} (h : shifts_le a b) :
    (calculate_satisfaction_score I sol1 a t1).satisfaction_score ≤
      (calculate_satisfaction_score I sol2 b t2).satisfaction_score := by
  unfold calculate_satisfaction_score
  simp only
  have hsum : ((I.providers.map (fun p =>
      match a p with
      | some S => provider_weighted I p S
      | none => 0)).sum : ℚ) ≤
      (I.providers.map (fun p =>
      match b p with
      | some S => provider_weighted I p S
      | none => 0)).sum := by
    apply List.sum_le_sum
    intro p _
    cases ha : a p with
    | none =>
      cases hb : b p with
      | none => simp
      | some T => simpa [hb] using provider_weighted_nonneg I p T
    | some S =>
      obtain ⟨T, hT, hST⟩ := h p S ha
      simpa [hT] using provider_weighted_mono I p hST
  split_ifs with hpos
  · have hd : (0 : ℚ) < (I.providers.length : ℚ) * 20 * 2.0 := hpos
    exact (div_le_div_iff_of_pos_right hd).mpr hsum
  · exact le_refl 0

-- ===========================================================================
-- Concrete scenarios used by counterexamples and witnesses
-- ===========================================================================

/-- Count of worked shifts of type `s` of a provider inside the day window
`[lo, lo + len)` (the WorkingShift window of the spec). -/
def shifts_window_count (S : Finset (Shift × Day)) (s : Shift) (lo len : ℕ) : ℕ :=
  ((List.range' lo len).filter (fun d => (s, d) ∈ S)).length

/-- Number of worked shifts of a provider on one day, across shift types. -/
def day_shift_count (S : Finset (Shift × Day)) (d : Day) : ℕ :=
  (S.filter (fun e => e.2 = d)).card

/-- Scenario A of the spec: one provider, one facility, MD1 needed on days
1-5, volume 10, full availability, effectively unbounded quotas. -/
def scA : Inputs :=
  { providers := ["P"]
    facilities := ["F"]
    days := List.range' 1 31
    coverage := fun _ s => if s = Shift.MD1 then [1, 2, 3, 4, 5] else []
    availability := fun _ _ => all_shifts
    credentialing := fun _ => {"F"}
    volumes := fun _ s => if s = Shift.MD1 then 10 else 0
    contracts := fun _ => default_contract
    weekend_days := [] }

/-- The slot catalog of Scenario A. -/
def scA_slots : List Slot :=
  [("F", Shift.MD1, 1), ("F", Shift.MD1, 2), ("F", Shift.MD1, 3),
   ("F", Shift.MD1, 4), ("F", Shift.MD1, 5)]

/-- One provider, one facility offering MD1 and MD2 on day 1 (volume 10
each). -/
def two_shift_inputs : Inputs :=
  { providers := ["P"]
    facilities := ["F"]
    days := List.range' 1 31
    coverage := fun _ s => if s = Shift.PM then [] else [1]
    availability := fun _ _ => all_shifts
    credentialing := fun _ => {"F"}
    volumes := fun _ s => if s = Shift.PM then 0 else 10
    contracts := fun _ => default_contract
    weekend_days := [] }

/-- One provider, one facility whose MD1 volume (2) is below the MD1 band
minimum (6). -/
def low_volume_inputs : Inputs :=
  { providers := ["P"]
    facilities := ["F"]
    days := List.range' 1 31
    coverage := fun _ s => if s = Shift.MD1 then [1] else []
    availability := fun _ _ => all_shifts
    credentialing := fun _ => {"F"}
    volumes := fun _ s => if s = Shift.MD1 then 2 else 0
    contracts := fun _ => default_contract
    weekend_days := [] }

set_option maxRecDepth 8000
set_option maxHeartbeats 2000000

/-- In Scenario A the greedy fallback assigns the one provider all five MD1
days: 5 worked MD1 shifts inside the 5-day window starting at day 1. -/
theorem scA_greedy_five_in_window :
    shifts_window_count (((run_phase1_greedy scA scA_slots).shifts "P").getD ∅)
      Shift.MD1 1 5 = 5 := by
  have h1 : ¬ ((14 : ℚ) < 10) := by norm_num
  simp only [run_phase1_greedy, run_phase1_greedy_from, scA_slots, List.foldl]
  simp [greedy_step, is_eligible_greedy, commit, scA, init_state, argmax_first,
    over_twenty, soft_ok, dict_insert, all_shifts, volume_limits, default_contract,
    shifts_window_count, weekend_count, pm_count, h1]
  decide

/-- The Phase-1 greedy fallback assigns the same provider both MD1 and MD2 on
day 1 when both slots are offered. -/
theorem greedy_two_shifts_same_day :
    day_shift_count
      (((run_phase1_greedy two_shift_inputs
          [("F", Shift.MD1, 1), ("F", Shift.MD2, 1)]).shifts "P").getD ∅) 1 = 2 := by
  have h1 : ¬ ((14 : ℚ) < 10) := by norm_num
  have h2 : ¬ ((16 : ℚ) < 10) := by norm_num
  simp only [run_phase1_greedy, run_phase1_greedy_from, List.foldl]
  simp [greedy_step, is_eligible_greedy, commit, two_shift_inputs, init_state,
    argmax_first, over_twenty, soft_ok, dict_insert, all_shifts, volume_limits,
    default_contract, day_shift_count, weekend_count, pm_count, h1, h2]
  decide

/-- Phase-2 completion (minimize-providers variation) assigns the provider a
second shift type on a day it already works: starting from the Phase-1 state
holding `(MD1, 1)`, the uncovered MD2 slot of day 1 is also assigned. -/
theorem phase2_two_shifts_same_day :
    day_shift_count
      (((phase2_minimize two_shift_inputs
          (run_phase1_greedy two_shift_inputs [("F", Shift.MD1, 1)]).solution
          (run_phase1_greedy two_shift_inputs [("F", Shift.MD1, 1)]).shifts
          (run_phase1_greedy two_shift_inputs [("F", Shift.MD1, 1)]).vol
          [("F", Shift.MD2, 1)]).shifts "P").getD ∅) 1 = 2 := by
  have h1 : ¬ ((14 : ℚ) < 10) := by norm_num
  have h2 : ¬ ((16 : ℚ) < 10) := by norm_num
  simp only [run_phase1_greedy, run_phase1_greedy_from, phase2_minimize, List.foldl]
  simp [greedy_step, phase2_step, is_eligible_greedy, commit, two_shift_inputs,
    init_state, argmax_first, over_twenty, soft_ok, dict_insert, all_shifts,
    volume_limits, default_contract, day_shift_count, weekend_count, pm_count,
    score_minimize_providers, h1, h2]
  decide

/-- The greedy fallback covers a slot whose facility volume (2) is below the
MD1 band minimum: the provider works `(MD1, 1)` with accumulated volume 2. -/
theorem greedy_below_min_volume :
    (Shift.MD1, 1) ∈ ((run_phase1_greedy low_volume_inputs
        [("F", Shift.MD1, 1)]).shifts "P").getD ∅ ∧
    (run_phase1_greedy low_volume_inputs
        [("F", Shift.MD1, 1)]).vol ("P", Shift.MD1, 1) = 2 := by
  have h1 : ¬ ((14 : ℚ) < 2) := by norm_num
  simp only [run_phase1_greedy, run_phase1_greedy_from, List.foldl]
  simp [greedy_step, is_eligible_greedy, commit, low_volume_inputs, init_state,
    argmax_first, over_twenty, soft_ok, dict_insert, all_shifts, volume_limits,
    default_contract, weekend_count, pm_count, h1]

-- ===========================================================================
-- Model-solution facts and greedy state invariants
-- ===========================================================================

/-- `int_trunc` is the identity on integers. -/
theorem int_trunc_intCast (k : ℤ) : int_trunc (k : ℚ) = k := by
  unfold int_trunc
  split_ifs <;> simp

/-- A non-working `(p, s, d)` absorbs zero volume in a model solution. -/
theorem cp_real_vol_eq_zero {I : Inputs} {a : Assign} {p : Prov} {s : Shift} {d : Day}
    (h : cp_working I a p s d = false) : cp_real_vol I a p s d = 0 := by
  unfold cp_working at h
  rw [List.any_eq_false] at h
  unfold cp_real_vol
  apply List.sum_eq_zero
  intro x hx
  obtain ⟨f, hf, rfl⟩ := List.mem_map.mp hx
  simp [h f hf]

/-- When every volume is an integer number of hundredths, the scaled integer
volume sum of the model is exactly 100 times the real volume sum. -/
theorem cp_vol_sum_scaled {I : Inputs}
    (h100 : ∀ f s, ∃ k : ℤ, I.volumes f s = (k : ℚ) / 100)
    (a : Assign) (p : Prov) (s : Shift) (d : Day) :
    cp_real_vol I a p s d * 100 = ((cp_vol_sum I a p s d : ℤ) : ℚ) := by
  unfold cp_real_vol cp_vol_sum
  induction I.facilities with
  | nil => simp
  | cons f fs ih =>
    simp only [List.map_cons, List.sum_cons, add_mul, ih, Int.cast_add]
    congr 1
    by_cases hx : xval I a p f s d
    · simp only [hx, if_true]
      obtain ⟨k, hk⟩ := h100 f s
      unfold vol_coef
      rw [hk, div_mul_cancel₀ _ (by norm_num : (100 : ℚ) ≠ 0), int_trunc_intCast]
    · simp [hx]

/-- The scaled band endpoints are exact: `min*100` and `max*100` are integers
for every shift type. -/
theorem volume_limits_scaled (s : Shift) :
    ((int_trunc ((volume_limits s).1 * 100) : ℤ) : ℚ) = (volume_limits s).1 * 100 ∧
    ((int_trunc ((volume_limits s).2 * 100) : ℤ) : ℚ) = (volume_limits s).2 * 100 := by
  have key : ∀ k : ℤ, ∀ q : ℚ, q = (k : ℚ) → ((int_trunc q : ℤ) : ℚ) = q := by
    intro k q hq
    rw [hq, int_trunc_intCast]
  cases s
  · exact ⟨key 600 _ (by norm_num [volume_limits]), key 1400 _ (by norm_num [volume_limits])⟩
  · exact ⟨key 800 _ (by norm_num [volume_limits]), key 1600 _ (by norm_num [volume_limits])⟩
  · exact ⟨key 500 _ (by norm_num [volume_limits]), key 1000 _ (by norm_num [volume_limits])⟩

/-- A working `(p, s, d)` in a model solution absorbs a real volume inside
the shift type's band (exactly, when volumes are integer hundredths). -/
theorem cp_model_band {I : Inputs} {a : Assign} (hvol : cp_volume_ok I a)
    (h100 : ∀ f s, ∃ k : ℤ, I.volumes f s = (k : ℚ) / 100)
    {p : Prov} (hp : p ∈ I.providers) {s : Shift} (hs : s ∈ shift_list)
    {d : Day} (hd : d ∈ I.days) (hw : cp_working I a p s d = true) :
    (volume_limits s).1 ≤ cp_real_vol I a p s d ∧
      cp_real_vol I a p s d ≤ (volume_limits s).2 := by
  obtain ⟨hlo, hhi⟩ := hvol p hp s hs d hd hw
  have hscale := cp_vol_sum_scaled h100 a p s d
  obtain ⟨hl, hr⟩ := volume_limits_scaled s
  have h100pos : (0 : ℚ) < 100 := by norm_num
  constructor
  · have hcast : ((int_trunc ((volume_limits s).1 * 100) : ℤ) : ℚ) ≤
        ((cp_vol_sum I a p s d : ℤ) : ℚ) := by exact_mod_cast hlo
    rw [hl, ← hscale] at hcast
    exact le_of_mul_le_mul_right hcast h100pos
  · have hcast : ((cp_vol_sum I a p s d : ℤ) : ℚ) ≤
        ((int_trunc ((volume_limits s).2 * 100) : ℤ) : ℚ) := by exact_mod_cast hhi
    rw [hr, ← hscale] at hcast
    exact le_of_mul_le_mul_right hcast h100pos

/-- Well-formedness of the greedy volume accounting: a `(shift, day)` pair
not worked by a provider carries volume 0, and every accumulated volume
respects the shift type's band maximum. -/
def vol_state_ok (st : GState) : Prop :=
  ∀ p s d, ((s, d) ∉ ((st.shifts p).getD ∅) → st.vol (p, s, d) = 0) ∧
    st.vol (p, s, d) ≤ (volume_limits s).2

/-- The band maxima are positive. -/
theorem volume_limits_max_pos (s : Shift) : (0 : ℚ) ≤ (volume_limits s).2 := by
  cases s <;> norm_num [volume_limits]

/-- The empty run state is volume-well-formed. -/
theorem vol_state_ok_init : vol_state_ok init_state := by
  intro p s d
  exact ⟨fun _ => rfl, volume_limits_max_pos s⟩

/-- A `commit` of an eligible provider preserves volume well-formedness. -/
theorem vol_state_ok_commit {I : Inputs} {st : GState} {f : Fac} {s : Shift}
    {d : Day} {c : Prov} {b : Bool} (hok : vol_state_ok st)
    (helig : is_eligible_greedy I c f s d st.shifts st.vol b = true) :
    vol_state_ok (commit I st f s d c) := by
  obtain ⟨-, -, hvol, -⟩ := is_eligible_elim helig
  intro p s2 d2
  by_cases hkey : (p, s2, d2) = (c, s, d)
  · obtain ⟨hp, hsd⟩ := Prod.mk.injEq .. ▸ hkey
    obtain ⟨hs, hd⟩ := Prod.mk.injEq .. ▸ hsd
    subst hp; subst hs; subst hd
    constructor
    · intro hnot
      exact absurd (by simp [commit] : (s2, d2) ∈ (((commit I st f s2 d2 p).shifts p).getD ∅)) hnot
    · simpa [commit] using hvol
  · have hvol2 : (commit I st f s d c).vol (p, s2, d2) = st.vol (p, s2, d2) := by
      simp [commit, hkey]
    constructor
    · intro hnot
      rw [hvol2]
      by_cases hp : p = c
      · subst hp
        have hnot2 : (s2, d2) ∉ ((st.shifts p).getD ∅) := by
          intro hmem
          apply hnot
          have hsh : ((commit I st f s d p).shifts p).getD ∅ =
              insert (s, d) ((st.shifts p).getD ∅) := by
            simp [commit]
          rw [hsh]
          exact Finset.mem_insert_of_mem hmem
        exact (hok p s2 d2).1 hnot2
      · have hnot2 : (s2, d2) ∉ ((st.shifts p).getD ∅) := by
          intro hmem
          apply hnot
          simpa [commit, hp] using hmem
        exact (hok p s2 d2).1 hnot2
    · rw [hvol2]
      exact (hok p s2 d2).2

/-- A Phase-1 greedy step preserves volume well-formedness. -/
theorem vol_state_ok_greedy_step {I : Inputs} {st : GState} (hok : vol_state_ok st)
    (slot : Slot) : vol_state_ok (greedy_step I st slot) := by
  unfold greedy_step
  cases harg : argmax_first (fun p =>
      match st.shifts p with
      | some S => if (slot.2.1, slot.2.2) ∈ S then 1000 else 0
      | none => 0)
      (I.providers.filter
        (fun p => is_eligible_greedy I p slot.1 slot.2.1 slot.2.2 st.shifts st.vol true)) with
  | none => simpa [harg] using hok
  | some c =>
    have hmem := argmax_first_mem _ _ _ harg
    have helig := (List.mem_filter.mp hmem).2
    simp only [harg]
    exact vol_state_ok_commit hok (by simpa using helig)

/-- A Phase-2 step preserves volume well-formedness. -/
theorem vol_state_ok_phase2_step {I : Inputs} {sc : Prov → Shift → Day → ShiftsMap → ℤ}
    {st : GState} (hok : vol_state_ok st) (slot : Slot) :
    vol_state_ok (phase2_step I sc st slot) := by
  unfold phase2_step
  cases harg : argmax_first (fun p => sc p slot.2.1 slot.2.2 st.shifts)
      (I.providers.filter
        (fun p => is_eligible_greedy I p slot.1 slot.2.1 slot.2.2 st.shifts st.vol false)) with
  | none => simpa [harg] using hok
  | some c =>
    have hmem := argmax_first_mem _ _ _ harg
    have helig := (List.mem_filter.mp hmem).2
    simp only [harg]
    exact vol_state_ok_commit hok (by simpa using helig)

/-- Folding greedy steps preserves volume well-formedness. -/
theorem vol_state_ok_greedy_fold (I : Inputs) (l : List Slot) (st : GState)
    (hok : vol_state_ok st) : vol_state_ok (run_phase1_greedy_from I st l) := by
  induction l generalizing st with
  | nil => exact hok
  | cons x xs ih => exact ih _ (vol_state_ok_greedy_step hok x)

/-- Folding Phase-2 steps preserves volume well-formedness. -/
theorem vol_state_ok_phase2_fold (I : Inputs) (sc : Prov → Shift → Day → ShiftsMap → ℤ)
    (l : List Slot) (st : GState) (hok : vol_state_ok st) :
    vol_state_ok (l.foldl (phase2_step I sc) st) := by
  induction l generalizing st with
  | nil => exact hok
  | cons x xs ih => exact ih _ (vol_state_ok_phase2_step hok x)

/-- Seeding empty sets does not change any provider's effective shift set. -/
theorem seed_getD (I : Inputs) (ps : ShiftsMap) (p : Prov) :
    ((seed_providers I ps p).getD ∅) = ((ps p).getD ∅) := by
  unfold seed_providers
  cases ps p with
  | some S => rfl
  | none => split_ifs <;> rfl

/-- The absolute per-month ceiling: every provider holds at most 20 worked
shifts in the accounting dict. -/
def caps_ok (st : GState) : Prop :=
  ∀ q, ((st.shifts q).getD ∅).card ≤ 20

/-- A `commit` of an eligible provider preserves the 20-shift ceiling. -/
theorem caps_ok_commit {I : Inputs} {st : GState} {f : Fac} {s : Shift}
    {d : Day} {c : Prov} {b : Bool} (hok : caps_ok st)
    (helig : is_eligible_greedy I c f s d st.shifts st.vol b = true) :
    caps_ok (commit I st f s d c) := by
  obtain ⟨-, -, -, h20⟩ := is_eligible_elim helig
  intro q
  by_cases hq : q = c
  · subst hq
    have hsh : ((commit I st f s d q).shifts q).getD ∅ =
        insert (s, d) ((st.shifts q).getD ∅) := by
      simp [commit]
    rw [hsh]
    have hlt : ((st.shifts q).getD ∅).card ≤ 19 := by
      unfold over_twenty at h20
      cases hqs : st.shifts q with
      | none => simp [hqs]
      | some S =>
        rw [hqs] at h20
        simp only [decide_eq_false_iff_not, not_le] at h20
        simp [hqs]
        omega
    calc (insert (s, d) ((st.shifts q).getD ∅)).card
        ≤ ((st.shifts q).getD ∅).card + 1 := Finset.card_insert_le _ _
      _ ≤ 20 := by omega
  · have hsh : ((commit I st f s d c).shifts q).getD ∅ = ((st.shifts q).getD ∅) := by
      simp [commit, hq]
    rw [hsh]
    exact hok q

/-- A Phase-2 step preserves the 20-shift ceiling. -/
theorem caps_ok_phase2_step {I : Inputs} {sc : Prov → Shift → Day → ShiftsMap → ℤ}
    {st : GState} (hok : caps_ok st) (slot : Slot) :
    caps_ok (phase2_step I sc st slot) := by
  unfold phase2_step
  cases harg : argmax_first (fun p => sc p slot.2.1 slot.2.2 st.shifts)
      (I.providers.filter
        (fun p => is_eligible_greedy I p slot.1 slot.2.1 slot.2.2 st.shifts st.vol false)) with
  | none => simpa [harg] using hok
  | some c =>
    have hmem := argmax_first_mem _ _ _ harg
    have helig := (List.mem_filter.mp hmem).2
    simp only [harg]
    exact caps_ok_commit hok (by simpa using helig)

/-- Folding Phase-2 steps preserves the 20-shift ceiling. -/
theorem caps_ok_phase2_fold (I : Inputs) (sc : Prov → Shift → Day → ShiftsMap → ℤ)
    (l : List Slot) (st : GState) (hok : caps_ok st) :
    caps_ok (l.foldl (phase2_step I sc) st) := by
  induction l generalizing st with
  | nil => exact hok
  | cons x xs ih => exact ih _ (caps_ok_phase2_step hok x)

/-- The daily-hours constraint P1.8 forces at most one working shift type per
provider per day in any model solution (8 + 8, 8 + 12 and 8 + 8 + 12 all
exceed the 12-hour cap). -/
theorem cp_daily_at_most_one {I : Inputs} {a : Assign} (h : cp_daily_ok I a)
    {p : Prov} (hp : p ∈ I.providers) {d : Day} (hd : d ∈ I.days) :
    (shift_list.filter (fun s => cp_working I a p s d)).length ≤ 1 := by
  have hsum := h p hp d hd
  cases h1 : cp_working I a p Shift.MD1 d <;>
    cases h2 : cp_working I a p Shift.MD2 d <;>
      cases h3 : cp_working I a p Shift.PM d <;>
        simp [shift_list, shift_hours, h1, h2, h3] at hsum ⊢

/-- Membership in the window-start ranges of constraint P1.7. -/
theorem mem_window_range {start n : ℕ} (h1 : 1 ≤ start) (h2 : start ≤ n) :
    start ∈ List.range' 1 n := by
  simp only [List.mem_range'_1]
  omega

/-- A minimal input catalog used to witness universally quantified theorems:
one provider, one facility, one day, no coverage and no availability. -/
def trivial_inputs : Inputs :=
  { providers := ["A"]
    facilities := ["F"]
    days := [1]
    coverage := fun _ _ => []
    availability := fun _ _ => []
    credentialing := fun _ => ∅
    volumes := fun _ _ => 0
    contracts := fun _ => default_contract
    weekend_days := [] }

/-- The all-false variable assignment. -/
def no_assign : Assign := fun _ _ _ _ => false

-- ===========================================================================
-- Claims
-- ===========================================================================

/-- Claim C1 (corrected).  Amended statement: every solution of the CP-SAT
Phase-1 model satisfies the sliding-window ceilings (at most 4 MD1 shifts and
at most 4 combined MD1+PM shifts in any 5-day window, at most 7 MD2 shifts in
any 8-day window, at most 3 PM shifts in any 4-day window of the month), but
the greedy fallback and the Phase-2 completion variations do not enforce any
window ceiling: in Scenario A (one provider, MD1 needed on days 1-5) the
greedy fallback assigns all five days to the same provider. -/
theorem C1_window_ceilings (I : Inputs) (a : Assign)
    (hsat : cpsat_constraints I a) :
    (∀ p ∈ I.providers, ∀ start : ℕ, 1 ≤ start → start + 4 ≤ 31 →
      cp_count_range I a p Shift.MD1 start (start + 5) ≤ 4 ∧
      cp_count_range I a p Shift.MD1 start (start + 5) +
        cp_count_range I a p Shift.PM start (start + 5) ≤ 4) ∧
    (∀ p ∈ I.providers, ∀ start : ℕ, 1 ≤ start → start + 7 ≤ 31 →
      cp_count_range I a p Shift.MD2 start (start + 8) ≤ 7) ∧
    (∀ p ∈ I.providers, ∀ start : ℕ, 1 ≤ start → start + 3 ≤ 31 →
      cp_count_range I a p Shift.PM start (start + 4) ≤ 3) ∧
    shifts_window_count (((run_phase1_greedy scA scA_slots).shifts "P").getD ∅)
      Shift.MD1 1 5 = 5 := by
  obtain ⟨-, -, -, hwin, -, -⟩ := hsat
  refine ⟨?_, ?_, ?_, scA_greedy_five_in_window⟩
  · intro p hp start h1 h2
    obtain ⟨hmd1, -, -, hcomb⟩ := hwin p hp
    have hm := hmd1 start (mem_window_range h1 (by omega))
    have hc := hcomb start (mem_window_range h1 (by omega))
    rw [min_eq_left (by omega)] at hm hc
    exact ⟨hm, hc⟩
  · intro p hp start h1 h2
    obtain ⟨-, hmd2, -, -⟩ := hwin p hp
    have hm := hmd2 start (mem_window_range h1 (by omega))
    rwa [min_eq_left (by omega)] at hm
  · intro p hp start h1 h2
    obtain ⟨-, -, hpm, -⟩ := hwin p hp
    have hm := hpm start (mem_window_range h1 (by omega))
    rwa [min_eq_left (by omega)] at hm

/-- Witness for C1: the all-false assignment on the minimal catalog satisfies
the model constraints, and the theorem yields the MD1 window bound there. -/
theorem C1_window_ceilings_witness :
    cp_count_range trivial_inputs no_assign "A" Shift.MD1 1 (1 + 5) ≤ 4 :=
  ((C1_window_ceilings trivial_inputs no_assign (by decide)).1 "A" (by decide) 1
    (by decide) (by decide)).1

/-- Counterexample to C1 as stated: the greedy fallback (run when the solver
fails) assigns the single provider of Scenario A all 5 MD1 days, so the
5-day window starting at day 1 holds 5 > 4 worked MD1 shifts. -/
theorem C1_window_ceilings_counterexample :
    ¬ (shifts_window_count (((run_phase1_greedy scA scA_slots).shifts "P").getD ∅)
        Shift.MD1 1 5 ≤ 4) := by
  rw [scA_greedy_five_in_window]
  decide

/-- Claim C2 (corrected).  Amended statement: in every CP-SAT model solution
a provider works at most one shift type per day (forced by the 12-hour daily
cap), but the greedy paths never check it: the Phase-1 greedy fallback
assigns the same provider both MD1 and MD2 on day 1 when both slots are
offered. -/
theorem C2_single_shift_per_day (I : Inputs) (a : Assign)
    (hsat : cpsat_constraints I a) :
    (∀ p ∈ I.providers, ∀ d ∈ I.days,
      (shift_list.filter (fun s => cp_working I a p s d)).length ≤ 1) ∧
    day_shift_count (((run_phase1_greedy two_shift_inputs
      [("F", Shift.MD1, 1), ("F", Shift.MD2, 1)]).shifts "P").getD ∅) 1 = 2 := by
  obtain ⟨-, -, -, -, hdaily, -⟩ := hsat
  exact ⟨fun p hp d hd => cp_daily_at_most_one hdaily hp hd,
    greedy_two_shifts_same_day⟩

/-- Witness for C2: the all-false assignment satisfies the constraints and
works at most one shift type on day 1. -/
theorem C2_single_shift_per_day_witness :
    (shift_list.filter
      (fun s => cp_working trivial_inputs no_assign "A" s 1)).length ≤ 1 :=
  (C2_single_shift_per_day trivial_inputs no_assign (by decide)).1 "A" (by decide)
    1 (by decide)

/-- Counterexample to C2 as stated: in the greedy fallback run over the two
slots `(F, MD1, 1)` and `(F, MD2, 1)` the provider ends up with two worked
shifts on day 1. -/
theorem C2_single_shift_per_day_counterexample :
    ¬ (day_shift_count (((run_phase1_greedy two_shift_inputs
        [("F", Shift.MD1, 1), ("F", Shift.MD2, 1)]).shifts "P").getD ∅) 1 ≤ 1) := by
  rw [greedy_two_shifts_same_day]
  decide

/-- Claim C8 (confirmed).  If the solver status is neither Optimal nor
Feasible, the exact phase's result is discarded and the greedy fallback runs
over the full slot catalog; the greedy pass is a single left fold over the
catalog in order (processing each slot exactly once), and it always returns
a result. -/
theorem C8_solver_failure_fallback (I : Inputs) (slots : List Slot)
    (status : SolverStatus) (a : Assign)
    (h1 : status ≠ SolverStatus.optimal) (h2 : status ≠ SolverStatus.feasible) :
    run_phase1_cpsat I slots status a = run_phase1_greedy I slots ∧
    ∀ (st : GState) (l1 l2 : List Slot),
      run_phase1_greedy_from I st (l1 ++ l2) =
        run_phase1_greedy_from I (run_phase1_greedy_from I st l1) l2 := by
  constructor
  · unfold run_phase1_cpsat
    rw [if_neg]
    rintro (h | h)
    · exact h1 h
    · exact h2 h
  · intro st l1 l2
    unfold run_phase1_greedy_from
    exact List.foldl_append _ _ _ _

/-- Witness for C8: an Infeasible status on the minimal catalog yields
exactly the greedy-fallback result. -/
theorem C8_solver_failure_fallback_witness :
    run_phase1_cpsat trivial_inputs [("F", Shift.MD1, 1)] SolverStatus.infeasible
      no_assign = run_phase1_greedy trivial_inputs [("F", Shift.MD1, 1)] :=
  (C8_solver_failure_fallback trivial_inputs [("F", Shift.MD1, 1)]
    SolverStatus.infeasible no_assign (by decide) (by decide)).1

/-- Claim C10 (confirmed).  Availability-cell parsing: a missing or blank
cell gives full availability; `unavailable` (case-insensitive, after
stripping) gives none; a cell containing `pm only` gives `[PM]`; otherwise a
cell containing `am only` gives `[MD1, MD2]`; any other non-empty text gives
full availability. -/
theorem C10_availability_cells (cell : List Char) :
    parse_availability_cell none = all_shifts ∧
    (trim_chars cell = [] → parse_availability_cell (some cell) = all_shifts) ∧
    (lower_trim cell = "unavailable".toList →
      parse_availability_cell (some cell) = []) ∧
    (has_sub "pm only".toList (lower_trim cell) = true →
      parse_availability_cell (some cell) = [Shift.PM]) ∧
    (has_sub "pm only".toList (lower_trim cell) = false →
      has_sub "am only".toList (lower_trim cell) = true →
      parse_availability_cell (some cell) = [Shift.MD1, Shift.MD2]) ∧
    (trim_chars cell ≠ [] → lower_trim cell ≠ "unavailable".toList →
      has_sub "pm only".toList (lower_trim cell) = false →
      has_sub "am only".toList (lower_trim cell) = false →
      parse_availability_cell (some cell) = all_shifts) := by
  refine ⟨rfl, ?_, ?_, ?_, ?_, ?_⟩
  · intro h
    simp [parse_availability_cell, h]
  · intro h
    have hne : trim_chars cell ≠ [] := by
      intro h0
      rw [lower_trim, h0] at h
      exact absurd h (by decide)
    simp [parse_availability_cell, hne, h]
  · intro h
    have hne : trim_chars cell ≠ [] := by
      intro h0
      rw [lower_trim, h0] at h
      exact absurd h (by decide)
    have hneq : lower_trim cell ≠ "unavailable".toList := by
      intro h0
      rw [h0] at h
      exact absurd h (by decide)
    have h2 := h
    have hneq2 := hneq
    simp at h2 hneq2
    simp [parse_availability_cell, hne, hneq2, h2]
  · intro hpm ham
    have hne : trim_chars cell ≠ [] := by
      intro h0
      rw [lower_trim, h0] at ham
      exact absurd ham (by decide)
    have hneq : lower_trim cell ≠ "unavailable".toList := by
      intro h0
      rw [h0] at ham
      exact absurd ham (by decide)
    have hpm2 := hpm
    have ham2 := ham
    have hneq2 := hneq
    simp at hpm2 ham2 hneq2
    simp [parse_availability_cell, hne, hneq2, hpm2, ham2]
  · intro hne hneq hpm ham
    have hpm2 := hpm
    have ham2 := ham
    have hneq2 := hneq
    simp at hpm2 ham2 hneq2
    simp [parse_availability_cell, hne, hneq2, hpm2, ham2]

/-- Witness for C10 on concrete cells of each kind. -/
theorem C10_availability_cells_witness :
    parse_availability_cell (some "  ".toList) = all_shifts ∧
    parse_availability_cell (some " Unavailable ".toList) = [] ∧
    parse_availability_cell (some "PM Only".toList) = [Shift.PM] ∧
    parse_availability_cell (some "AM only".toList) = [Shift.MD1, Shift.MD2] ∧
    parse_availability_cell (some "vacation day".toList) = all_shifts :=
  ⟨(C10_availability_cells " ".toList).2.1 (by decide),
   (C10_availability_cells " Unavailable ".toList).2.2.1 (by decide),
   (C10_availability_cells "PM Only".toList).2.2.2.1 (by decide),
   (C10_availability_cells "AM only".toList).2.2.2.2.1 (by decide) (by decide),
   (C10_availability_cells "vacation day".toList).2.2.2.2.2 (by decide) (by decide)
     (by decide) (by decide)⟩

/-- The hard checks §4.3 keeps in Phase 2 (for comparison with the code's
`is_eligible_greedy(..., check_soft_limits=False)`): credentialing,
availability, volume-band maximum, and the absolute 20-shift ceiling — and
nothing else. -/
def phase2_hard_eligible (I : Inputs) (p : Prov) (f : Fac) (s : Shift) (d : Day)
    (ps : ShiftsMap) (pv : VolMap) : Bool :=
  decide (f ∈ I.credentialing p) && decide (s ∈ I.availability p d) &&
  decide (pv (p, s, d) + I.volumes f s ≤ (volume_limits s).2) && !(over_twenty ps p)

/-- Claim C3 (corrected).  Amended statement: Phase-2 eligibility disables
the total/weekend/PM quota ceilings and consists exactly of credentialing,
availability, the volume-band *maximum*, and the absolute 20-shift ceiling;
a provider at 20 or more worked shifts is never eligible, and if every
provider starts Phase 2 at or below 20 worked shifts, both completion
variations keep every provider at or below 20; however Phase 2 checks
neither one-shift-per-day (it assigns a second shift type on a day already
worked) nor the volume-band minimum. -/
theorem C3_phase2_eligibility (I : Inputs) (sol_base : List (Slot × Prov))
    (shifts_base : ShiftsMap) (vol_base : VolMap) (uncovered : List Slot) :
    (∀ p f s d ps pv,
      is_eligible_greedy I p f s d ps pv false = phase2_hard_eligible I p f s d ps pv) ∧
    (∀ p f s d ps pv, over_twenty ps p = true →
      is_eligible_greedy I p f s d ps pv false = false) ∧
    ((∀ q, ((shifts_base q).getD ∅).card ≤ 20) →
      (∀ q, (((phase2_minimize I sol_base shifts_base vol_base uncovered).shifts q).getD ∅).card ≤ 20) ∧
      (∀ q, (((phase2_balanced I sol_base shifts_base vol_base uncovered).shifts q).getD ∅).card ≤ 20)) ∧
    day_shift_count
      (((phase2_minimize two_shift_inputs
          (run_phase1_greedy two_shift_inputs [("F", Shift.MD1, 1)]).solution
          (run_phase1_greedy two_shift_inputs [("F", Shift.MD1, 1)]).shifts
          (run_phase1_greedy two_shift_inputs [("F", Shift.MD1, 1)]).vol
          [("F", Shift.MD2, 1)]).shifts "P").getD ∅) 1 = 2 := by
  refine ⟨?_, ?_, ?_, phase2_two_shifts_same_day⟩
  · intro p f s d ps pv
    unfold is_eligible_greedy phase2_hard_eligible
    by_cases h1 : f ∈ I.credentialing p <;>
      by_cases h2 : s ∈ I.availability p d <;>
        by_cases h3 : (volume_limits s).2 < pv (p, s, d) + I.volumes f s <;>
          by_cases h4 : over_twenty ps p = true <;>
            simp [h1, h2, h3, h4, not_lt.mp, le_of_not_lt, not_le.mpr]
  · intro p f s d ps pv h20
    unfold is_eligible_greedy
    simp [h20]
  · intro hbase
    constructor
    · intro q
      unfold phase2_minimize
      have hini : caps_ok
          { solution := sol_base, shifts := shifts_base, vol := vol_base, filled := 0 } := hbase
      exact caps_ok_phase2_fold I _ uncovered _ hini q
    · intro q
      unfold phase2_balanced
      have hini : caps_ok
          { solution := sol_base, shifts := seed_providers I shifts_base,
            vol := vol_base, filled := 0 } := by
        intro r
        show ((seed_providers I shifts_base r).getD ∅).card ≤ 20
        rw [seed_getD]
        exact hbase r
      exact caps_ok_phase2_fold I _ uncovered _ hini q

/-- Witness for C3: a provider holding 20 worked shifts is rejected by the
Phase-2 eligibility test, and the cap-preservation conjunct applies to the
empty base state. -/
theorem C3_phase2_eligibility_witness :
    is_eligible_greedy trivial_inputs "A" "F" Shift.MD1 1
      (fun _ => some (((List.range' 1 20).map (fun d => (Shift.PM, d))).toFinset))
      (fun _ => 0) false = false ∧
    (((phase2_minimize trivial_inputs [] (fun _ => none) (fun _ => 0) []).shifts
        "A").getD ∅).card ≤ 20 :=
  ⟨(C3_phase2_eligibility trivial_inputs [] (fun _ => none) (fun _ => 0) []).2.1
      "A" "F" Shift.MD1 1 _ _ (by decide),
   ((C3_phase2_eligibility trivial_inputs [] (fun _ => none) (fun _ => 0) []).2.2.1
      (fun q => by simp)).1 "A"⟩

/-- Counterexample to C3 as stated: one-shift-per-day is claimed to remain a
hard condition in Phase-2 completion, but the minimize-providers completion
gives the provider a second worked shift type on day 1. -/
theorem C3_phase2_eligibility_counterexample :
    ¬ (day_shift_count
        (((phase2_minimize two_shift_inputs
            (run_phase1_greedy two_shift_inputs [("F", Shift.MD1, 1)]).solution
            (run_phase1_greedy two_shift_inputs [("F", Shift.MD1, 1)]).shifts
            (run_phase1_greedy two_shift_inputs [("F", Shift.MD1, 1)]).vol
            [("F", Shift.MD2, 1)]).shifts "P").getD ∅) 1 ≤ 1) := by
  rw [phase2_two_shifts_same_day]
  decide

/-- Claim C4 (corrected).  Amended statement: in every CP-SAT model solution
a working `(p, s, d)` absorbs a volume inside the shift type's band (exactly
so when facility volumes are integer hundredths) and a non-working one
absorbs 0; on the greedy paths (fallback and both Phase-2 completions) only
the band *maximum* is enforced and the zero-volume property holds, while the
band minimum is not checked: the greedy fallback covers a volume-2 MD1 slot,
leaving a working shift with volume 2 < 6. -/
theorem C4_volume_band (I : Inputs) (a : Assign) (hsat : cpsat_constraints I a)
    (h100 : ∀ f s, ∃ k : ℤ, I.volumes f s = (k : ℚ) / 100)
    (sol_base : List (Slot × Prov)) (shifts_base : ShiftsMap) (vol_base : VolMap)
    (uncovered : List Slot)
    (hbase : vol_state_ok
      { solution := sol_base, shifts := shifts_base, vol := vol_base, filled := 0 }) :
    (∀ p ∈ I.providers, ∀ s ∈ shift_list, ∀ d ∈ I.days,
      (cp_working I a p s d = true →
        (volume_limits s).1 ≤ cp_real_vol I a p s d ∧
          cp_real_vol I a p s d ≤ (volume_limits s).2) ∧
      (cp_working I a p s d = false → cp_real_vol I a p s d = 0)) ∧
    (∀ slots : List Slot, vol_state_ok (run_phase1_greedy I slots)) ∧
    vol_state_ok (phase2_minimize I sol_base shifts_base vol_base uncovered) ∧
    vol_state_ok (phase2_balanced I sol_base shifts_base vol_base uncovered) ∧
    ((Shift.MD1, 1) ∈ ((run_phase1_greedy low_volume_inputs
        [("F", Shift.MD1, 1)]).shifts "P").getD ∅ ∧
      (run_phase1_greedy low_volume_inputs [("F", Shift.MD1, 1)]).vol
        ("P", Shift.MD1, 1) = 2 ∧
      ¬ ((volume_limits Shift.MD1).1 ≤ 2)) := by
  obtain ⟨-, -, hvol, -, -, -⟩ := hsat
  refine ⟨?_, ?_, ?_, ?_, ?_⟩
  · intro p hp s hs d hd
    exact ⟨fun hw => cp_model_band hvol h100 hp hs hd hw,
      fun hw => cp_real_vol_eq_zero hw⟩
  · intro slots
    exact vol_state_ok_greedy_fold I slots init_state vol_state_ok_init
  · unfold phase2_minimize
    exact vol_state_ok_phase2_fold I _ uncovered _ hbase
  · unfold phase2_balanced
    have hini : vol_state_ok
        { solution := sol_base, shifts := seed_providers I shifts_base,
          vol := vol_base, filled := 0 } := by
      intro p s d
      have hmem : ((seed_providers I shifts_base p).getD ∅) =
          ((shifts_base p).getD ∅) := seed_getD I shifts_base p
      constructor
      · intro hnot
        exact (hbase p s d).1 (by rwa [hmem] at hnot)
      · exact (hbase p s d).2
    exact vol_state_ok_phase2_fold I _ uncovered _ hini
  · obtain ⟨h1, h2⟩ := greedy_below_min_volume
    exact ⟨h1, h2, by norm_num [volume_limits]⟩

/-- Witness for C4: on the minimal catalog with the all-false assignment the
model conjunct gives zero volume for a non-working triple, and the Phase-1
greedy fallback of the empty slot list is volume-well-formed. -/
theorem C4_volume_band_witness :
    cp_real_vol trivial_inputs no_assign "A" Shift.MD1 1 = 0 ∧
    (run_phase1_greedy trivial_inputs []).vol ("A", Shift.MD1, 1) ≤
      (volume_limits Shift.MD1).2 :=
  ⟨((C4_volume_band trivial_inputs no_assign (by decide)
      (fun f s => ⟨0, by norm_num [trivial_inputs]⟩) [] (fun _ => none) (fun _ => 0) []
      vol_state_ok_init).1 "A" (by decide) Shift.MD1 (by decide) 1
      (by decide)).2 (by decide),
   (((C4_volume_band trivial_inputs no_assign (by decide)
      (fun f s => ⟨0, by norm_num [trivial_inputs]⟩) [] (fun _ => none) (fun _ => 0) []
      vol_state_ok_init).2.1 []) "A" Shift.MD1 1).2⟩

/-- Counterexample to C4 as stated: the greedy fallback covers the volume-2
MD1 slot, producing a true WorkingShift whose facility-volume sum 2 lies
below the MD1 band minimum 6. -/
theorem C4_volume_band_counterexample :
    (Shift.MD1, 1) ∈ ((run_phase1_greedy low_volume_inputs
        [("F", Shift.MD1, 1)]).shifts "P").getD ∅ ∧
    (run_phase1_greedy low_volume_inputs [("F", Shift.MD1, 1)]).vol
      ("P", Shift.MD1, 1) = 2 ∧
    ¬ ((volume_limits Shift.MD1).1 ≤
        (run_phase1_greedy low_volume_inputs [("F", Shift.MD1, 1)]).vol
          ("P", Shift.MD1, 1)) := by
  obtain ⟨h1, h2⟩ := greedy_below_min_volume
  refine ⟨h1, h2, ?_⟩
  rw [h2]
  norm_num [volume_limits]

/-- Claim C5 (confirmed).  The Conservative variation is a verbatim copy of
the Phase-1 state (same solution dict, shifts aggregate and volumes), and
for a fixed Phase-1 base the minimize-providers and balanced completions
cover a superset of the base's covered slots. -/
theorem C5_conservative_monotone_coverage (I : Inputs)
    (sol_base : List (Slot × Prov)) (shifts_base : ShiftsMap) (vol_base : VolMap)
    (uncovered : List Slot) (st : GState) :
    conservative st = st ∧
    (∀ k, covered sol_base k →
      covered (phase2_minimize I sol_base shifts_base vol_base uncovered).solution k) ∧
    (∀ k, covered sol_base k →
      covered (phase2_balanced I sol_base shifts_base vol_base uncovered).solution k) := by
  refine ⟨rfl, ?_, ?_⟩
  · intro k hk
    unfold phase2_minimize
    exact covered_phase2_fold uncovered _ k hk
  · intro k hk
    unfold phase2_balanced
    exact covered_phase2_fold uncovered _ k hk

/-- Witness for C5: a slot covered by the base stays covered after the
minimize-providers completion. -/
theorem C5_conservative_monotone_coverage_witness :
    covered (phase2_minimize trivial_inputs [(("F", Shift.MD1, 1), "A")]
      (fun _ => none) (fun _ => 0) []).solution ("F", Shift.MD1, 1) :=
  (C5_conservative_monotone_coverage trivial_inputs [(("F", Shift.MD1, 1), "A")]
    (fun _ => none) (fun _ => 0) [] init_state).2.1 ("F", Shift.MD1, 1) (by decide)

/-- Claim C9 (confirmed).  For any fixed Phase-1 base, the Conservative
variation's satisfaction score is at most the scores of the
minimize-providers and balanced completions: Phase 2 only grows each
provider's worked-shift set and every excess term is monotone. -/
theorem C9_conservative_ranks_no_worse (I : Inputs)
    (sol_base : List (Slot × Prov)) (shifts_base : ShiftsMap) (vol_base : VolMap)
    (uncovered : List Slot) (total_slots : ℕ) :
    (calculate_satisfaction_score I
        (conservative (GState.mk sol_base shifts_base vol_base 0)).solution
        (conservative (GState.mk sol_base shifts_base vol_base 0)).shifts total_slots).satisfaction_score ≤
      (calculate_satisfaction_score I
        (phase2_minimize I sol_base shifts_base vol_base uncovered).solution
        (phase2_minimize I sol_base shifts_base vol_base uncovered).shifts
        total_slots).satisfaction_score ∧
    (calculate_satisfaction_score I
        (conservative (GState.mk sol_base shifts_base vol_base 0)).solution
        (conservative (GState.mk sol_base shifts_base vol_base 0)).shifts total_slots).satisfaction_score ≤
      (calculate_satisfaction_score I
        (phase2_balanced I sol_base shifts_base vol_base uncovered).solution
        (phase2_balanced I sol_base shifts_base vol_base uncovered).shifts
        total_slots).satisfaction_score := by
  constructor
  · apply satisfaction_score_mono
    unfold phase2_minimize
    exact shifts_le_phase2_fold I _ uncovered _
  · apply satisfaction_score_mono
    unfold phase2_balanced
    exact shifts_le_trans (shifts_le_seed I shifts_base)
      (shifts_le_phase2_fold I _ uncovered
        (GState.mk sol_base (seed_providers I shifts_base) vol_base 0))

/-- The §4.5 score formula as the spec states it: the sum over all providers
of the weighted excess, divided by provider count × 20 × 2.0. -/
def spec_satisfaction_score (I : Inputs) (ps : ShiftsMap) : ℚ :=
  (I.providers.map (fun p => provider_weighted I p ((ps p).getD ∅))).sum /
    ((I.providers.length : ℚ) * 20 * 2.0)

/-- A provider with no shifts has zero weighted excess when its quotas are
non-negative. -/
theorem provider_weighted_empty (I : Inputs) (p : Prov)
    (hT : 0 ≤ (I.contracts p).total_shifts) (hP : 0 ≤ (I.contracts p).pm_shifts)
    (hW : 0 ≤ (I.contracts p).weekend_shifts) :
    provider_weighted I p (∅ : Finset (Shift × Day)) = 0 := by
  unfold provider_weighted provider_M provider_P provider_W pm_count weekend_count
  have e1 : (if (I.contracts p).total_shifts < 999 then
      max 0 (((∅ : Finset (Shift × Day)).card : ℤ) - (I.contracts p).total_shifts)
      else 0) = 0 := by
    split_ifs with h
    · simp only [Finset.card_empty, Nat.cast_zero, zero_sub]
      omega
    · rfl
  have e2 : (if (I.contracts p).pm_shifts < 999 then
      max 0 ((((∅ : Finset (Shift × Day)).filter (fun e => e.1 = Shift.PM)).card : ℤ) -
        (I.contracts p).pm_shifts) else 0) = 0 := by
    split_ifs with h
    · simp only [Finset.filter_empty, Finset.card_empty, Nat.cast_zero, zero_sub]
      omega
    · rfl
  have e3 : (if (I.contracts p).weekend_shifts < 999 then
      max 0 ((((∅ : Finset (Shift × Day)).filter
          (fun e => e.2 ∈ I.weekend_days)).card : ℤ) -
        (I.contracts p).weekend_shifts) else 0) = 0 := by
    split_ifs with h
    · simp only [Finset.filter_empty, Finset.card_empty, Nat.cast_zero, zero_sub]
      omega
    · rfl
  rw [e1, e2, e3]
  norm_num

/-- Scenario D of the spec: one provider with quotas total=8, PM=2,
weekend=1; day 6 is the only weekend day. -/
def scD : Inputs :=
  { providers := ["A"]
    facilities := []
    days := List.range' 1 31
    coverage := fun _ _ => []
    availability := fun _ _ => []
    credentialing := fun _ => ∅
    volumes := fun _ _ => 0
    contracts := fun _ =>
      { contract_type := "IC", total_shifts := 8, weekend_shifts := 1,
        pm_shifts := 2, preferred_shifts := [] }
    weekend_days := [6] }

/-- Scenario D worked shifts: 10 total, 3 of them PM, 1 on a weekend day. -/
def scD_set : Finset (Shift × Day) :=
  {(Shift.MD1, 1), (Shift.MD1, 2), (Shift.MD1, 3), (Shift.MD1, 4), (Shift.MD1, 5),
   (Shift.MD1, 6), (Shift.MD1, 7), (Shift.PM, 8), (Shift.PM, 9), (Shift.PM, 10)}

/-- Scenario D `provider_shifts` dict. -/
def scD_shifts : ShiftsMap := fun p => if p = "A" then some scD_set else none

/-- Claim C6 (confirmed).  The satisfaction score equals the spec formula —
the sum over all providers of `1.0·M + 1.5·P + 2.0·W` divided by provider
count × 20 × 2.0 — whenever quotas are non-negative (providers absent from
the dict contribute 0 either way); and in Scenario D the total weighted
excess is 3.5 and the score is 3.5 over the stated denominator. -/
theorem C6_score_formula :
    (∀ (I : Inputs) (sol : List (Slot × Prov)) (ps : ShiftsMap) (t : ℕ),
      (∀ p ∈ I.providers, 0 ≤ (I.contracts p).total_shifts ∧
        0 ≤ (I.contracts p).pm_shifts ∧ 0 ≤ (I.contracts p).weekend_shifts) →
      (calculate_satisfaction_score I sol ps t).satisfaction_score =
        spec_satisfaction_score I ps) ∧
    (calculate_satisfaction_score scD [] scD_shifts 0).total_weighted_excess = 3.5 ∧
    (calculate_satisfaction_score scD [] scD_shifts 0).satisfaction_score =
      3.5 / ((1 : ℚ) * 20 * 2.0) := by
  have hcard : scD_set.card = 10 := by decide
  have hpm : pm_count scD_set = 3 := by decide
  have hwk : weekend_count scD_set [6] = 1 := by decide
  refine ⟨?_, ?_, ?_⟩
  · intro I sol ps t hq
    unfold calculate_satisfaction_score spec_satisfaction_score
    simp only
    have hterm : (I.providers.map (fun p =>
        match ps p with
        | some S => provider_weighted I p S
        | none => 0)).sum =
        (I.providers.map (fun p => provider_weighted I p ((ps p).getD ∅))).sum := by
      apply congrArg List.sum
      apply List.map_congr_left
      intro p hp
      cases hps : ps p with
      | some S => simp [hps]
      | none =>
        obtain ⟨hT, hP, hW⟩ := hq p hp
        simp only [hps, Option.getD_none]
        exact (provider_weighted_empty I p hT hP hW).symm
    rcases Nat.eq_zero_or_pos I.providers.length with h0 | h0
    · rw [List.length_eq_zero] at h0
      simp [h0]
    · have hpos : (0 : ℚ) < (I.providers.length : ℚ) * 20 * 2.0 := by
        have : (0 : ℚ) < (I.providers.length : ℚ) := by exact_mod_cast h0
        nlinarith
      rw [if_pos hpos, hterm]
  · simp [calculate_satisfaction_score, scD, scD_shifts, provider_weighted,
      provider_M, provider_P, provider_W, hcard, hpm, hwk]
    norm_num
  · simp [calculate_satisfaction_score, scD, scD_shifts, provider_weighted,
      provider_M, provider_P, provider_W, hcard, hpm, hwk]
    norm_num

/-- Witness for C6: the formula equality applied to the Scenario D inputs. -/
theorem C6_score_formula_witness :
    (calculate_satisfaction_score scD [] scD_shifts 0).satisfaction_score =
      spec_satisfaction_score scD scD_shifts :=
  C6_score_formula.1 scD [] scD_shifts 0 (by decide)

/-- A shift set inside the claimed domain of C7: exactly 20 worked shifts
(the absolute monthly ceiling), all PM and all on weekend days. -/
def over_limit_set : Finset (Shift × Day) :=
  ((List.range' 1 20).map (fun d => (Shift.PM, d))).toFinset

/-- Inputs realizing the C7 failing case: one provider whose total, PM and
weekend quotas are all 0 and whose month has days 1-20 as weekend days. -/
def over_limit_inputs : Inputs :=
  { providers := ["A"]
    facilities := []
    days := List.range' 1 31
    coverage := fun _ _ => []
    availability := fun _ _ => []
    credentialing := fun _ => ∅
    volumes := fun _ _ => 0
    contracts := fun _ =>
      { contract_type := "IC", total_shifts := 0, weekend_shifts := 0,
        pm_shifts := 0, preferred_shifts := [] }
    weekend_days := List.range' 1 20 }

/-- The C7 `provider_shifts` dict. -/
def over_limit_shifts : ShiftsMap :=
  fun p => if p = "A" then some over_limit_set else none

/-- Claim C7 is false on the code (code bug: the function's own docstring
promises a score in `[0, 1]`).  With one provider holding 20 worked shifts —
the absolute monthly ceiling, so inside the claim's quantified domain — all
PM, all on weekend days, against zero quotas, the weighted excess is
`20·1.0 + 20·1.5 + 20·2.0 = 90` while the normalizer is `1 × 20 × 2.0 = 40`,
so the computed score is `9/4 > 1`. -/
theorem C7_score_exceeds_one :
    (calculate_satisfaction_score over_limit_inputs [] over_limit_shifts
      0).satisfaction_score = 9 / 4 ∧
    ¬ ((calculate_satisfaction_score over_limit_inputs [] over_limit_shifts
      0).satisfaction_score ≤ 1) := by
  have hcard : over_limit_set.card = 20 := by decide
  have hpm : pm_count over_limit_set = 20 := by decide
  have hwk : weekend_count over_limit_set (List.range' 1 20) = 20 := by decide
  have hval : (calculate_satisfaction_score over_limit_inputs [] over_limit_shifts
      0).satisfaction_score = 9 / 4 := by
    simp [calculate_satisfaction_score, over_limit_inputs, over_limit_shifts,
      provider_weighted, provider_M, provider_P, provider_W, hcard, hpm, hwk]
    norm_num
  refine ⟨hval, ?_⟩
  rw [hval]
  norm_num
